import Mathlib

/-!
Verification of the kompress library (virtual paths over archive containers and
single-stream compressed files) against its specification.

Python strings are modelled as `List Char` (`Str`); Python byte strings as
`List Nat` with entries below 256.  Python `assert` failures and uncaught
exceptions are modelled by `Option`/`Except` results (`none` / `.error`).
All definitions are translated from the repository sources:

  * `src/kompress/utils.py`  — `walk_paths` (the Path-Tree Builder),
  * `src/kompress/zip.py`    — `ZipPath` (zip-backed virtual path),
  * `src/kompress/tar.py`    — `Node`, `TarPath` (tar-backed virtual path),
  * `src/kompress/__init__.py` — `kopen` (decompression dispatcher) and
    `CPath` (facade).

External stdlib collaborators (`zipfile.CompleteDirs`, the gzip codec) are
modelled from their documented behaviour where the repository code calls into
them; each such definition is marked in its doc comment.
-/

namespace Kompress

/-- Python strings are modelled as lists of characters. -/
abbrev Str := List Char

/-- Models `name.endswith(ext)` on Python strings. -/
def endsWith (s ext : Str) : Bool :=
  ext.isSuffixOf s

/-- Split a string at every occurrence of the (single-character) separator,
like Python's `s.split(sep)`: `"a/b".split('/') = ["a","b"]`,
`"".split('/') = [""]`, `"a/".split('/') = ["a",""]`. -/
def splitOnChar (sep : Char) : Str → List Str
  | [] => [[]]
  | c :: cs =>
    let r := splitOnChar sep cs
    if c = sep then [] :: r
    else
      match r with
      | [] => [[c]]
      | x :: xs => (c :: x) :: xs

/-- Join pieces with the separator, like `sep.join(pieces)`. -/
def joinWith (sep : Char) : List Str → Str
  | [] => []
  | [x] => x
  | x :: y :: xs => x ++ sep :: joinWith sep (y :: xs)

/-- Python's `p.rsplit(sep, maxsplit=1)`: `none` when `sep` does not occur in
`p` (Python returns a one-element list in that case), otherwise
`some (before, after)` where `after` is the part following the last `sep`. -/
def rsplit1 (sep : Char) (p : Str) : Option (Str × Str) :=
  match (splitOnChar sep p).reverse with
  | [] => none
  | [_] => none
  | last :: rest => some (joinWith sep rest.reverse, last)

/-- First-occurrence-preserving deduplication (Python `dict.fromkeys` /
`_dedupe` order), with an explicit seen-set accumulator. -/
def dedupeFirstAux {α : Type} [BEq α] (seen : List α) : List α → List α
  | [] => []
  | x :: xs =>
    if seen.contains x then dedupeFirstAux seen xs
    else x :: dedupeFirstAux (x :: seen) xs

/-- First-occurrence-preserving deduplication. -/
def dedupeFirst {α : Type} [BEq α] (l : List α) : List α :=
  dedupeFirstAux [] l

/-- Python `dict(assocList)[k]`: the *last* binding of a key wins. -/
def lookupLast {α : Type} (l : List (Str × α)) (k : Str) : Option α :=
  (l.reverse.find? (fun q => q.1 == k)).map (·.2)

/-- Python `dict(assocList).keys()`: keys in first-occurrence order. -/
def dictKeys {α : Type} (l : List (Str × α)) : List Str :=
  dedupeFirst (l.map (·.1))

/-- Insert into an ascending list, used to model Python `list.sort()`
(lexicographic `<` on strings = the `List Char` linear order). -/
def insertSorted (x : Str) : List Str → List Str
  | [] => [x]
  | y :: ys => if y < x then y :: insertSorted x ys else x :: y :: ys

/-- Python `list.sort()` for lists of strings (ascending lexicographic). -/
def sortStrs (l : List Str) : List Str :=
  l.foldr insertSorted []

/-! ## Path-Tree Builder: `walk_paths` from `src/kompress/utils.py`

The Python function builds the tree by mutating list-valued tuples shared
between a stack and the parent entries' `dirs` lists.  The shared mutable
entries are modelled by an arena: `BEntry.dirs` stores child *indices* into
the arena, and mutation is arena update.  The `assert stack_pos >= 0` that
fires when the parent-lookup loop pops past the bottom of the stack is
modelled by the `Option` result (`none` = `AssertionError`). -/

/-- One `Entry = (root, dirs, files)` under construction; `dirs` holds
`(dirname, arena index of child entry)` pairs. -/
structure BEntry where
  root : Str
  dirs : List (Str × Nat)
  files : List Str
deriving DecidableEq

/-- The mutable state of `walk_paths`' build loop: the arena of entries, the
stack of entry indices, and `stack_pos`. -/
structure BuildState where
  arena : List BEntry
  stack : List Nat
  stackPos : Nat
deriving DecidableEq

/-- Modify the element at position `i` (identity when out of range). -/
def modifyAt {α : Type} : List α → Nat → (α → α) → List α
  | [], _, _ => []
  | x :: xs, 0, f => f x :: xs
  | x :: xs, i + 1, f => x :: modifyAt xs i f

/-- The `while` loop of `walk_paths`: starting at `stack_pos`, walk down the
stack until the entry's root equals `target_root`; `none` models the
`assert stack_pos >= 0` failure when the loop pops past the bottom. -/
def findPos (arena : List BEntry) (stack : List Nat) (target : Str) : Nat → Option Nat
  | 0 =>
    match stack[0]? with
    | none => none
    | some id =>
      match arena[id]? with
      | none => none
      | some e => if e.root = target then some 0 else none
  | pos + 1 =>
    match stack[pos + 1]? with
    | none => none
    | some id =>
      match arena[id]? with
      | none => none
      | some e =>
        if e.root = target then some (pos + 1)
        else findPos arena stack target pos

/-- The body of `walk_paths`' `for p in paths` loop for one path `p`. -/
def processPath (sep : Char) (st : BuildState) (p : Str) : Option BuildState :=
  let pr := match rsplit1 sep p with
    | none => (['.'], p)
    | some q => q
  let p_parent := pr.1
  let p_name := pr.2
  if p_name.isEmpty then
    -- directory entry: `p` ends with the separator
    let qr := match rsplit1 sep p_parent with
      | none => (['.'], p_parent)
      | some q => q
    let target_root := qr.1
    let dirname := qr.2
    match findPos st.arena st.stack target_root st.stackPos with
    | none => none
    | some pos =>
      match st.stack[pos]? with
      | none => none
      | some parentId =>
        let newId := st.arena.length
        let arena := st.arena ++ [⟨p_parent, [], []⟩]
        let arena := modifyAt arena parentId
          (fun e => { e with dirs := e.dirs ++ [(dirname, newId)] })
        let stack := st.stack ++ [newId]
        some ⟨arena, stack, stack.length - 1⟩
  else
    let target_root := p_parent
    match findPos st.arena st.stack target_root st.stackPos with
    | none => none
    | some pos =>
      match st.stack[pos]? with
      | none => none
      | some parentId =>
        some ⟨modifyAt st.arena parentId
                (fun e => { e with files := e.files ++ [p_name] }),
              st.stack, pos⟩

/-- Initial state: `stack = [('.', [], [])]`, `stack_pos = 0`. -/
def initState : BuildState :=
  ⟨[⟨['.'], [], []⟩], [0], 0⟩

/-- The `for p in paths` loop of `walk_paths`. -/
def buildLoop (sep : Char) (st : BuildState) : List Str → Option BuildState
  | [] => some st
  | p :: ps =>
    match processPath sep st p with
    | none => none
    | some st' => buildLoop sep st' ps

/-- The fully-built `Entry` tree (`Entry = (root, dirs, files)` with child
entries inline). -/
inductive Entry where
  | mk (root : Str) (dirs : List (Str × Entry)) (files : List Str)

def Entry.root : Entry → Str
  | .mk r _ _ => r

def Entry.dirs : Entry → List (Str × Entry)
  | .mk _ d _ => d

def Entry.files : Entry → List Str
  | .mk _ _ f => f

/-- Materialize the tree rooted at arena index `id`.  Fuel-based recursion:
child indices created by `processPath` are strictly larger than their
parent's, so fuel `arena.length` always suffices. -/
def toEntry (arena : List BEntry) : Nat → Nat → Option Entry
  | 0, _ => none
  | fuel + 1, id =>
    match arena[id]? with
    | none => none
    | some e => do
      let ds ← e.dirs.mapM (fun dc => do
        let c ← toEntry arena fuel dc.2
        pure (dc.1, c))
      pure (.mk e.root ds e.files)

/-- One yielded triple `(root, dirnames, filenames)`. -/
abbrev Triple := Str × List Str × List Str

/-- A consumer of the walk generator: given the yielded triple
`(root, dirnames, files)` it returns the (possibly mutated-in-place) `dirs`
list that the generator's `for d in dirnames` loop then iterates.  The
identity pruner models a consumer that does not touch the list. -/
abbrev Pruner := Str → List Str → List Str → List Str

/-- Models `_traverse` of `walk_paths`: yield the (sorted) triple for this entry,
then descend into the children listed by the consumer's (possibly
mutated-in-place) `dirs` list (`prune root dirnames files`), looking each
name up in `dict(dir_entries)`.  A name absent from the dict contributes
nothing (the Python consumer only removes names in the spec's scenario; an
added unknown name would raise `KeyError`).  Fuel-based recursion (`none` on
exhaustion); recursion depth equals tree depth, so any fuel above the number
of built entries suffices, and a `some` result is fuel-independent. -/
def traverseEntry (prune : Pruner) : Nat → Entry → Option (List Triple)
  | 0, _ => none
  | fuel + 1, .mk root dir_entries files =>
    let dirnames := sortStrs (dictKeys dir_entries)
    let files' := sortStrs files
    do
      let parts ← (prune root dirnames files').mapM (fun d =>
        match lookupLast dir_entries d with
        | some c => traverseEntry prune fuel c
        | none => pure [])
      pure ((root, dirnames, files') :: parts.flatten)

/-- Models `walk_paths` from `src/kompress/utils.py`, parameterized by the consumer
(`prune`): build the tree from the flat path list, then traverse it.
`none` models an `AssertionError` escaping the generator. -/
def walkPathsWith (prune : Pruner) (paths : List Str) (separator : Char) :
    Option (List Triple) := do
  let st ← buildLoop separator initState paths
  let root ← toEntry st.arena st.arena.length 0
  traverseEntry prune (st.arena.length + 1) root

/-- Models `walk_paths(paths, separator)` with a consumer that does not mutate the
yielded `dirs` lists. -/
def walk_paths (paths : List Str) (separator : Char) : Option (List Triple) :=
  walkPathsWith (fun _ dirs _ => dirs) paths separator

/-! Sanity checks: the repository's own unit tests of `walk_paths`
(`test_walk_paths_basic` in `src/kompress/utils.py`). -/

theorem walk_paths_empty :
    walk_paths [] '/' = some [(['.'], [], [])] := by decide

theorem walk_paths_two_files :
    walk_paths ["aaa".data, "bbb".data] '/' =
      some [(['.'], [], ["aaa".data, "bbb".data])] := by decide

theorem walk_paths_one_empty_dir :
    walk_paths ["aaa/".data] '/' =
      some [(['.'], ["aaa".data], []), ("aaa".data, [], [])] := by decide

theorem walk_paths_nested :
    walk_paths ["aaa/".data, "aaa/bbb/".data, "aaa/bbb/fff".data] '/' =
      some [(['.'], ["aaa".data], []),
            ("aaa".data, ["bbb".data], []),
            ("aaa/bbb".data, [], ["fff".data])] := by decide

/-! ## Zip-Backed Virtual Path: `ZipPath` from `src/kompress/zip.py` -/

/-- The zip-backed virtual path: the container file's name (`root.filename`,
via the `filepath` property) and the relative entry name inside it (the
`at` attribute of `zipfile.Path`).  `Path(...)` wrapping of these values is
the identity on the normalized strings involved. -/
structure ZipPath where
  filename : Str
  rat : Str
deriving DecidableEq

/-- The `filepath` property: filesystem path of the outer archive. -/
def ZipPath.filepath (z : ZipPath) : Str := z.filename

/-- The `subpath` property: `Path(self.at)`. -/
def ZipPath.subpath (z : ZipPath) : Str := z.rat

/-- Models `ZipPath.__eq__`: equality of the `(filepath, subpath)` tuples; `False`
for a non-`ZipPath` operand (see `eqPy`). -/
def ZipPath.eqZ (a b : ZipPath) : Bool :=
  (a.filepath == b.filepath) && (a.subpath == b.subpath)

/-- Python tuple comparison `(a1, a2) < (b1, b2)` (lexicographic, with
Python string/`Path` comparison being the lexicographic `List Char` order). -/
def tupleLt (a b : Str × Str) : Bool :=
  decide (a.1 < b.1) || (a.1 == b.1 && decide (a.2 < b.2))

/-- Models `ZipPath.__lt__`: tuple comparison of `(filepath, subpath)`; `False` for
a non-`ZipPath` operand (see `ltPy`). -/
def ZipPath.ltZ (a b : ZipPath) : Bool :=
  tupleLt (a.filepath, a.subpath) (b.filepath, b.subpath)

/-- Models `ZipPath.__hash__`: `hash((self.filepath, self.subpath))`, modelled by a
(deterministic) hash of the tuple. -/
def ZipPath.hashZ (z : ZipPath) : UInt64 :=
  hash (z.filepath, z.subpath)

/-- Python values a `ZipPath` can be compared against: another `ZipPath`, a
plain filesystem path (with its textual value), or anything else. -/
inductive PyVal where
  | zipP (z : ZipPath)
  | plainPath (s : Str)
  | otherVal
deriving DecidableEq

/-- The reported class identity of a Python object (`type(x)` /
`x.__class__`). -/
inductive PyClass where
  | pathCls
  | zipPathCls
deriving DecidableEq

/-- The spoofed `__class__` property of `ZipPath`: it reports the plain
`pathlib.Path` class. -/
def ZipPath.classOf (_ : ZipPath) : PyClass := .pathCls

/-- Models `ZipPath.__eq__` against an arbitrary Python value: the
`isinstance(other, ZipPath)` guard returns `False` for everything else. -/
def ZipPath.eqPy (z : ZipPath) (v : PyVal) : Bool :=
  match v with
  | .zipP w => ZipPath.eqZ z w
  | _ => false

/-- Models `ZipPath.__lt__` against an arbitrary Python value: the
`isinstance(other, ZipPath)` guard returns `False` for everything else. -/
def ZipPath.ltPy (z : ZipPath) (v : PyVal) : Bool :=
  match v with
  | .zipP w => ZipPath.ltZ z w
  | _ => false

/-- Strip all trailing occurrences of `sep` (Python `rstrip`). -/
def rstripChar (sep : Char) (s : Str) : Str :=
  (s.reverse.dropWhile (fun c => c == sep)).reverse

/-- Modelled from the stdlib collaborator `zipfile`: the proper ancestors of
a member name (`_parents`/`_ancestry` in `zipfile.CompleteDirs`), longest
first: `parentsOf "a/b/c" = ["a/b", "a"]`. -/
def parentsOf (p : Str) : List Str :=
  let q := rstripChar '/' p
  let parts := splitOnChar '/' q
  ((List.range (parts.length - 1)).reverse).map
    (fun k => joinWith '/' (parts.take (k + 1)))

/-- Modelled from the stdlib collaborator `zipfile.CompleteDirs.namelist`
(the class of `ZipPath.root`): the explicit member names followed by the
implied directory names (ancestors of members, as `dir/`-style names, that
are not explicit members), deduplicated in first-occurrence order. -/
def namelistComplete (names : List Str) : List Str :=
  let implied := (((names.map parentsOf).flatten).map (fun p => p ++ ['/'])).filter
    (fun d => !(names.contains d))
  names ++ dedupeFirst implied

/-- Models `posixpath.join(a, b)` for the cases arising here (relative names). -/
def posixJoin (a b : Str) : Str :=
  if b.head? = some '/' then b
  else if a.isEmpty then b
  else if a.getLast? = some '/' then a ++ b
  else a ++ '/' :: b

/-- Models `ZipPath.walk` from `src/kompress/zip.py`, parameterized by the consumer
(`prune`, see `Pruner`) and by the container's member list (`members`; the
code reads `self.root.namelist()`, where `root : zipfile.CompleteDirs`
closes the member list over implied directories): collect the member names
under `self.at`, strip that prefix, sort, feed into `walk_paths`, and map
each yielded root `r` to the virtual path `self / r` (`self` itself for
`'.'`). -/
def ZipPath.walkWith (prune : Pruner) (members : List Str) (self : ZipPath) :
    Option (List (ZipPath × List Str × List Str)) :=
  let names := (namelistComplete members).filterMap (fun n =>
    if self.rat.isPrefixOf n then
      let rest := n.drop self.rat.length
      if rest.isEmpty then none else some rest
    else none)
  let names := sortStrs names
  (walkPathsWith prune names '/').map (List.map (fun t =>
    ({ self with rat := if t.1 = ['.'] then self.rat else posixJoin self.rat t.1 },
     t.2.1, t.2.2)))

/-- Models `ZipPath.walk` with a consumer that does not mutate the yielded `dirs`
lists. -/
def ZipPath.walk (members : List Str) (self : ZipPath) :
    Option (List (ZipPath × List Str × List Str)) :=
  ZipPath.walkWith (fun _ dirs _ => dirs) members self

/-! ## Tar-Backed Virtual Path: `Node` and `TarPath` from `src/kompress/tar.py`

`assert`-level failures (`AssertionError`) are modelled as `Except Unit`
errors; `exists()` is the only operation returning a soft `false`. -/

/-- A tar member's type flag, as consulted by `TarInfo.isfile`/`isdir`. -/
inductive TarKind where
  | fileKind
  | dirKind
deriving DecidableEq

/-- The tar member metadata (`tarfile.TarInfo`) needed here: name and type
flag. -/
structure TarInfo where
  name : Str
  kind : TarKind
deriving DecidableEq

/-- Models `TarInfo.isfile()`. -/
def TarInfo.isfile (i : TarInfo) : Bool := i.kind == .fileKind

/-- Models `TarInfo.isdir()`. -/
def TarInfo.isdir (i : TarInfo) : Bool := i.kind == .dirKind

/-- A node of the tar index tree (`Node` dataclass): member info plus child
nodes. -/
inductive Node where
  | mk (info : TarInfo) (children : List Node)

def Node.info : Node → TarInfo
  | .mk i _ => i

def Node.children : Node → List Node
  | .mk _ c => c

/-- Models `Node.name`: last `/`-separated segment of `info.name`. -/
def Node.nodeName (n : Node) : Str :=
  match rsplit1 '/' n.info.name with
  | none => n.info.name
  | some q => q.2

/-- Models `Nodes = Dict[str, Node]`: the shared archive index, keyed by the
normalized relative path (segments joined by `/`). -/
abbrev Nodes := List (Str × Node)

/-- A tar-backed virtual path: container name (`tar.name`), the shared index
(`_nodes`), the relative path parts (`_rpath`), and the resolved node
(`_node`, which may be absent). -/
structure TarPath where
  tarName : Str
  nodes : Nodes
  rpath : List Str
  nodeOpt : Option Node

/-- The `TarPath.__init__` resolution step: `_node` is the given node, or
else `_nodes.get('/'.join(_rpath.parts))`. -/
def TarPath.make (tarName : Str) (nodes : Nodes) (rpath : List Str)
    (nodeArg : Option Node) : TarPath :=
  { tarName, nodes, rpath,
    nodeOpt := match nodeArg with
      | some n => some n
      | none => lookupLast nodes (joinWith '/' rpath) }

/-- The asserting `node` property: `assert n is not None` is an
assertion-level failure (`.error ()`). -/
def TarPath.nodeP (t : TarPath) : Except Unit Node :=
  match t.nodeOpt with
  | some n => .ok n
  | none => .error ()

/-- Models `TarPath.is_file()`: consults the resolved node's kind; assertion-level
failure on a non-existent path. -/
def TarPath.is_file (t : TarPath) : Except Unit Bool :=
  (t.nodeP).map (fun n => n.info.isfile)

/-- Models `TarPath.is_dir()`: consults the resolved node's kind; assertion-level
failure on a non-existent path. -/
def TarPath.is_dir (t : TarPath) : Except Unit Bool :=
  (t.nodeP).map (fun n => n.info.isdir)

/-- Models `TarPath.exists()`: `self._node is not None` — the soft failure. -/
def TarPath.existsQ (t : TarPath) : Bool :=
  t.nodeOpt.isSome

/-- What `TarPath.open` hands back: the raw extracted byte stream of the
member, or that stream wrapped in a text decoder. -/
inductive TarStream where
  | bytesOf (info : TarInfo)
  | textOf (info : TarInfo) (encoding : Option Str)

/-- Models `TarPath.open(mode)`: extracts the member stream of `self.node.info`
(asserting the node exists), returning it raw when `'b' in mode`, wrapped in
a text decoder otherwise. -/
def TarPath.openF (t : TarPath) (mode : Str) (encoding : Option Str) :
    Except Unit TarStream := do
  let n ← t.nodeP
  if mode.contains 'b' then pure (.bytesOf n.info)
  else pure (.textOf n.info encoding)

/-- Models `TarPath.__truediv__`: extend the relative path; the new path's node is
re-resolved from the shared index (`_node=None`). -/
def TarPath.div (t : TarPath) (seg : Str) : TarPath :=
  TarPath.make t.tarName t.nodes (t.rpath ++ [seg]) none

/-! ## Decompression Dispatcher: `kopen` from `src/kompress/__init__.py` -/

/-- The action `kopen` dispatches to, by suffix of the path's final name
component, in source order: `.xz`, `.zip`, `.lz4`, `.zstd`/`.zst`,
`.tar.gz`, `.gz`, plain fallthrough.  Each constructor records the arguments
the selected opener receives. -/
inductive KopenResult where
  | lzmaOpen (mode : Str) (encoding : Option Str)
  | zipOpen (subpath : Option Str) (mode : Str)
  | lz4Open (mode : Str) (encoding : Option Str)
  | zstdOpen (mode : Str) (encoding : Option Str)
  | targzMember (member : Option Str)
  | gzipOpen (mode : Str) (encoding : Option Str)
  | plainOpen (mode : Str) (encoding : Option Str)
deriving DecidableEq

/-- The default of `kopen`'s `mode` keyword argument (`mode: str = 'rt'`). -/
def kopenDefaultMode : Str := "rt".data

/-- Models `kopen(path, *args, mode='rt', **kwargs)` from
`src/kompress/__init__.py`: the encoding defaults to `'utf8'` for modes
`'r'`/`'rt'` and is cleared otherwise; then the name's suffix selects the
branch.  `arg` models the single positional `*args` element (the
subpath/member for the zip and tar branches; `none` when absent).  The
Python-3.8-only `rt → r` rewrite in the zip branch is not modelled.  No
branch rejects any mode or suffix: every branch forwards to an opener. -/
def kopen (name : Str) (mode : Str) (encoding : Option Str) (arg : Option Str) :
    KopenResult :=
  let encoding := if mode == "r".data || mode == "rt".data
    then some (encoding.getD "utf8".data) else none
  if endsWith name ".xz".data then
    -- for lzma 'r' means 'rb', so bare 'r' is rewritten to 'rt'
    let mode := if mode == "r".data then "rt".data else mode
    .lzmaOpen mode encoding
  else if endsWith name ".zip".data then
    .zipOpen arg mode
  else if endsWith name ".lz4".data then
    .lz4Open mode encoding
  else if endsWith name ".zstd".data || endsWith name ".zst".data then
    .zstdOpen mode encoding
  else if endsWith name ".tar.gz".data then
    .targzMember arg
  else if endsWith name ".gz".data then
    -- for gzip 'r' means 'rb', so bare 'r' is rewritten to 'rt';
    -- gzip does not support encoding in binary mode
    let mode := if mode == "r".data then "rt".data else mode
    let encoding := if mode.contains 'b' then none else encoding
    .gzipOpen mode encoding
  else
    .plainOpen mode encoding

/-- What reading the stream returned by the gzip branch yields. -/
inductive GzContent where
  | binary (bs : List Nat)
  | textual (s : Str)
deriving DecidableEq

/-- Decode a byte string as text (the `'utf8'` default encoding, restricted
to the ASCII payloads at issue; `none` on a non-ASCII byte). -/
def decodeAscii (bs : List Nat) : Option Str :=
  if bs.all (fun b => b < 128) then some (bs.map (fun b => Char.ofNat b))
  else none

/-- Modelled from the stdlib collaborator `gzip.open` (the byte-level codec
is out of scope): reading the stream `kopen` returned for a
gzip-compressed file whose decompressed payload is `payload` gives the raw
payload in binary mode and the decoded text otherwise; `none` when the
dispatch did not produce the gzip branch. -/
def gzipRead (payload : List Nat) (r : KopenResult) : Option GzContent :=
  match r with
  | .gzipOpen mode _ =>
    if mode.contains 'b' then some (.binary payload)
    else (decodeAscii payload).map .textual
  | _ => none

/-! ## Compressed-Path Facade: `CPath` from `src/kompress/__init__.py` -/

/-- Outcome of `CPath.__new__`: the object it returns, or the exception that
escapes construction. -/
inductive CPathResult where
  | zipPathOk (z : ZipPath)
  | fsError
  | plainCPath (p : Str)
deriving DecidableEq

/-- Modelled from the stdlib collaborator `zipfile.Path` (called by
`ZipPath(path)`): construction eagerly opens the container file
(`FastLookup.make` → `ZipFile(path)`), so a missing container raises
`FileNotFoundError` (`.fsError`).  `fsx` is the real filesystem's existence
oracle. -/
def zipPathNew (fsx : Str → Bool) (p : Str) : CPathResult :=
  if fsx p then .zipPathOk ⟨p, []⟩ else .fsError

/-- Models `CPath.__new__`: names ending in `.zip` are delegated to `ZipPath`
(unconditionally — no existence check); every other name falls through to
`super().__new__`, a plain path object.  There is no `.tar.gz` branch. -/
def cpathNew (fsx : Str → Bool) (p : Str) : CPathResult :=
  if endsWith p ".zip".data then zipPathNew fsx p
  else .plainCPath p

/-- Outcome of `TarPath.__new__` on a `str | Path` argument. -/
inductive TarNewResult where
  | plainPath (p : Str)
  | buildsIndex (p : Str)
deriving DecidableEq

/-- Models `TarPath.__new__` (the `str | Path` case): when the container path does
not exist a plain path is returned (`exists()` will be false); otherwise the
archive index is built via `TarPath._make_args`. -/
def tarPathNew (fsx : Str → Bool) (p : Str) : TarNewResult :=
  if fsx p then .buildsIndex p else .plainPath p

/-! ## Helper lemmas -/

theorem endsWith_iff {s ext : Str} : endsWith s ext = true ↔ ext <:+ s := by
  unfold endsWith
  exact List.isSuffixOf_iff_suffix

/-- Two suffixes of the same string are comparable; so a string ending in
`e` cannot also end in `t` when neither of `e`, `t` is a suffix of the
other. -/
theorem endsWith_excl {s e : Str} (h : endsWith s e = true) (t : Str)
    (h1 : ¬ t <:+ e) (h2 : ¬ e <:+ t) : endsWith s t = false := by
  cases hb : endsWith s t with
  | false => rfl
  | true =>
    rcases List.suffix_or_suffix_of_suffix (endsWith_iff.mp hb) (endsWith_iff.mp h)
      with hc | hc
    · exact absurd hc h1
    · exact absurd hc h2

theorem tupleLt_iff {x y : Str × Str} :
    tupleLt x y = true ↔ x.1 < y.1 ∨ (x.1 = y.1 ∧ x.2 < y.2) := by
  simp [tupleLt, Bool.or_eq_true, Bool.and_eq_true, decide_eq_true_eq, beq_iff_eq]

theorem tupleLt_self (x : Str × Str) : tupleLt x x = false := by
  cases hb : tupleLt x x with
  | false => rfl
  | true =>
    rcases tupleLt_iff.mp hb with h | ⟨_, h⟩ <;> exact absurd h (lt_irrefl _)

theorem tupleLt_asymm {x y : Str × Str} (h : tupleLt x y = true) :
    tupleLt y x = false := by
  cases hb : tupleLt y x with
  | false => rfl
  | true =>
    rcases tupleLt_iff.mp h with h1 | ⟨he, h2⟩ <;>
      rcases tupleLt_iff.mp hb with g1 | ⟨ge, g2⟩
    · exact absurd g1 (lt_asymm h1)
    · exact absurd (ge ▸ h1) (lt_irrefl _)
    · exact absurd (he ▸ g1) (lt_irrefl _)
    · exact absurd (g2.trans h2) (lt_irrefl _)

theorem tupleLt_trans {x y z : Str × Str} (hxy : tupleLt x y = true)
    (hyz : tupleLt y z = true) : tupleLt x z = true := by
  rw [tupleLt_iff] at hxy hyz ⊢
  rcases hxy with h1 | ⟨he, h2⟩ <;> rcases hyz with g1 | ⟨ge, g2⟩
  · exact Or.inl (h1.trans g1)
  · exact Or.inl (ge ▸ h1)
  · exact Or.inl (he ▸ g1)
  · exact Or.inr ⟨he.trans ge, h2.trans g2⟩

theorem tupleLt_connex {x y : Str × Str} (hne : x ≠ y) :
    tupleLt x y = true ∨ tupleLt y x = true := by
  rw [tupleLt_iff, tupleLt_iff]
  rcases lt_trichotomy x.1 y.1 with h | h | h
  · exact Or.inl (Or.inl h)
  · rcases lt_trichotomy x.2 y.2 with g | g | g
    · exact Or.inl (Or.inr ⟨h, g⟩)
    · exact absurd (Prod.ext h g) hne
    · exact Or.inr (Or.inr ⟨h.symm, g⟩)
  · exact Or.inr (Or.inl h)

theorem zipPath_eq_iff (a b : ZipPath) :
    a = b ↔ a.filename = b.filename ∧ a.rat = b.rat := by
  cases a
  cases b
  simp

/-! ## Claims -/

/-- Claim C1 (corrected, amended form): the Path-Tree Builder does NOT
synthesize missing ancestor directories.  Whenever the flat member list
starts with a file entry whose parent directory is not the root, the parent
lookup pops past the bottom of the stack and the build fails with an
assertion error (`none`), regardless of the remaining entries; parent chains
resolve only when the ancestor directory entries appear explicitly (and
early enough) in the input list. -/
theorem C1_no_implicit_parent_synthesis
    (p : Str) (ps : List Str) (parent nm : Str)
    (hsplit : rsplit1 '/' p = some (parent, nm))
    (hfile : nm ≠ [])
    (hroot : parent ≠ ['.']) :
    walk_paths (p :: ps) '/' = none := by
  have hne : nm.isEmpty = false := by
    cases nm with
    | nil => exact absurd rfl hfile
    | cons a l => rfl
  have hproc : processPath '/' initState p = none := by
    unfold processPath
    rw [hsplit]
    simp only [hne, findPos, initState, Bool.false_eq_true, if_false]
    simp [Ne.symm hroot]
  have hb : buildLoop '/' initState (p :: ps) = none := by
    unfold buildLoop
    rw [hproc]
  simp [walk_paths, walkPathsWith, hb]

/-- Claim C1, counterexample to the claim as stated: feeding the member list
`['aaa/bbb']` (a file whose parent directory entry `aaa/` is absent) to the
builder does not succeed by synthesizing the parent — it fails with an
assertion error. -/
theorem C1_missing_parent_fails :
    walk_paths ["aaa/bbb".data] '/' = none := by decide

/-- Claim C1, witness for the amended theorem at a concrete input. -/
theorem C1_missing_parent_fails_witness :
    rsplit1 '/' "aaa/bbb".data = some ("aaa".data, "bbb".data) ∧
    "bbb".data ≠ ([] : Str) ∧ "aaa".data ≠ (['.'] : Str) ∧
    walk_paths ["aaa/bbb".data, "ccc".data] '/' = none :=
  ⟨by decide, by decide, by decide,
   C1_no_implicit_parent_synthesis "aaa/bbb".data ["ccc".data] "aaa".data "bbb".data
     (by decide) (by decide) (by decide)⟩

/-- Claim C2 (confirmed): for a zip container whose members are exactly
`aaa/bbb`, `aaa/ccc/ddd`, `file`, `empty_dir/`, walking from the root yields
exactly the four triples `(root, ['aaa','empty_dir'], ['file'])`,
`(root/aaa, ['ccc'], ['bbb'])`, `(root/aaa/ccc, [], ['ddd'])`,
`(root/empty_dir, [], [])` in that order; and when the consumer removes
`'ccc'` from the second triple's `dirs` list before the generator resumes,
the `root/aaa/ccc` triple is not yielded. -/
theorem C2_zip_walk_pruning :
    ZipPath.walk ["aaa/bbb".data, "aaa/ccc/ddd".data, "file".data, "empty_dir/".data]
        ⟨"archive.zip".data, []⟩ =
      some [(⟨"archive.zip".data, []⟩, ["aaa".data, "empty_dir".data], ["file".data]),
            (⟨"archive.zip".data, "aaa".data⟩, ["ccc".data], ["bbb".data]),
            (⟨"archive.zip".data, "aaa/ccc".data⟩, [], ["ddd".data]),
            (⟨"archive.zip".data, "empty_dir".data⟩, [], [])] ∧
    ZipPath.walkWith
        (fun root dirs _ =>
          if root == "aaa".data then dirs.filter (fun d => !(d == "ccc".data)) else dirs)
        ["aaa/bbb".data, "aaa/ccc/ddd".data, "file".data, "empty_dir/".data]
        ⟨"archive.zip".data, []⟩ =
      some [(⟨"archive.zip".data, []⟩, ["aaa".data, "empty_dir".data], ["file".data]),
            (⟨"archive.zip".data, "aaa".data⟩, ["ccc".data], ["bbb".data]),
            (⟨"archive.zip".data, "empty_dir".data⟩, [], [])] :=
  ⟨by decide, by decide⟩

/-- Claim C3 (corrected, amended form): the dispatcher does NOT reject zip
and tar-archive suffixes — it handles them itself: a `.zip` name is routed
to the zip virtual path's `open` (with the positional subpath argument and
the requested mode), and a `.tar.gz` name to the tar reader's `extractfile`
member lookup. -/
theorem C3_zip_tar_handled (name mode : Str) (enc arg : Option Str) :
    (endsWith name ".zip".data = true → kopen name mode enc arg = .zipOpen arg mode) ∧
    (endsWith name ".tar.gz".data = true → kopen name mode enc arg = .targzMember arg) := by
  constructor
  · intro h
    have h1 : endsWith name ".xz".data = false :=
      endsWith_excl h ".xz".data (by decide) (by decide)
    simp [kopen, h, h1]
  · intro h
    have h1 : endsWith name ".xz".data = false :=
      endsWith_excl h ".xz".data (by decide) (by decide)
    have h2 : endsWith name ".zip".data = false :=
      endsWith_excl h ".zip".data (by decide) (by decide)
    have h3 : endsWith name ".lz4".data = false :=
      endsWith_excl h ".lz4".data (by decide) (by decide)
    have h4 : endsWith name ".zstd".data = false :=
      endsWith_excl h ".zstd".data (by decide) (by decide)
    have h5 : endsWith name ".zst".data = false :=
      endsWith_excl h ".zst".data (by decide) (by decide)
    simp [kopen, h, h1, h2, h3, h4, h5]

/-- Claim C3, counterexample to the claim as stated: concrete zip and tar
names reaching the dispatcher are dispatched to their handler branches, not
to any rejection. -/
theorem C3_zip_tar_not_rejected :
    kopen "a.zip".data "rt".data none (some "sub".data) =
      .zipOpen (some "sub".data) "rt".data ∧
    kopen "a.tar.gz".data "rt".data none (some "m".data) =
      .targzMember (some "m".data) :=
  ⟨by decide, by decide⟩

/-- Claim C3, witness for the amended theorem at concrete inputs. -/
theorem C3_zip_tar_handled_witness :
    kopen "b.zip".data "r".data none (some "s".data) =
      .zipOpen (some "s".data) "r".data ∧
    kopen "b.tar.gz".data "r".data none (some "n".data) =
      .targzMember (some "n".data) :=
  ⟨(C3_zip_tar_handled "b.zip".data "r".data none (some "s".data)).1 (by decide),
   (C3_zip_tar_handled "b.tar.gz".data "r".data none (some "n".data)).2 (by decide)⟩

/-- Claim C4 (corrected, amended form): `kopen` does not validate the mode
at all — every mode, including write/append modes, is forwarded unchanged to
the underlying opener; on the plain-file fallthrough the file is opened with
exactly the requested mode (no read-only rejection exists). -/
theorem C4_mode_forwarded (mode : Str) (enc : Option Str) :
    kopen "file.txt".data mode enc none =
      .plainOpen mode
        (if mode == "r".data || mode == "rt".data
         then some (enc.getD "utf8".data) else none) := rfl

/-- Claim C4, counterexample to the claim as stated: write modes are not
rejected — `kopen` with mode `'w'` on a plain name opens the file for
writing, and with `'wb'` on a gzip name opens the gzip stream for writing. -/
theorem C4_write_mode_not_rejected :
    kopen "file.txt".data "w".data none none = .plainOpen "w".data none ∧
    kopen "f.gz".data "wb".data none none = .gzipOpen "wb".data none :=
  ⟨by decide, by decide⟩

/-- Claim C5 (code bug): evaluating the facade at the failing inputs.  For a
nonexistent `*.zip` path, `CPath.__new__` delegates to `ZipPath`
unconditionally, whose construction eagerly opens the container and raises
`FileNotFoundError` — instead of the plain inert path the spec (and the
repository's own test `test_cpath_zip`) require.  A `*.tar.gz` name is never
routed to `TarPath` at all (plain `CPath` regardless of existence,
contradicting `test_tar_dir`), even though `TarPath.__new__` itself does
implement the inert-path fallback for missing containers. -/
theorem C5_facade_nonexistent_eval :
    cpathNew (fun _ => false) "nosuchzip.zip".data = .fsError ∧
    (∀ fsx : Str → Bool,
      cpathNew fsx "export.tar.gz".data = .plainCPath "export.tar.gz".data) ∧
    (∀ p : Str, tarPathNew (fun _ => false) p = .plainPath p) :=
  ⟨by decide, fun _ => rfl, fun _ => rfl⟩

/-- Claim C6 (confirmed): for zip-backed virtual paths, `==` holds iff the
`(container file path, relative path)` tuples are equal; equal paths hash
equal; `<` agrees with lexicographic comparison of the tuples; and `<` is a
strict total order (irreflexive, asymmetric, transitive, and total on
distinct paths — in particular on distinct paths of the same container). -/
theorem C6_eq_hash_ord (a b c : ZipPath) :
    (ZipPath.eqZ a b = true ↔ (a.filepath, a.subpath) = (b.filepath, b.subpath)) ∧
    (ZipPath.eqZ a b = true → ZipPath.hashZ a = ZipPath.hashZ b) ∧
    (ZipPath.ltZ a b = true ↔
      a.filepath < b.filepath ∨ (a.filepath = b.filepath ∧ a.subpath < b.subpath)) ∧
    ZipPath.ltZ a a = false ∧
    (ZipPath.ltZ a b = true → ZipPath.ltZ b a = false) ∧
    (ZipPath.ltZ a b = true → ZipPath.ltZ b c = true → ZipPath.ltZ a c = true) ∧
    (a.filepath = b.filepath → a ≠ b →
      ZipPath.ltZ a b = true ∨ ZipPath.ltZ b a = true) := by
  have heq : ZipPath.eqZ a b = true ↔ (a.filepath, a.subpath) = (b.filepath, b.subpath) := by
    simp [ZipPath.eqZ, Prod.ext_iff, Bool.and_eq_true, beq_iff_eq]
  refine ⟨heq, ?_, ?_, ?_, ?_, ?_, ?_⟩
  · intro h
    have := heq.mp h
    unfold ZipPath.hashZ
    rw [show (a.filepath, a.subpath) = (b.filepath, b.subpath) from this]
  · exact tupleLt_iff
  · exact tupleLt_self _
  · exact tupleLt_asymm
  · exact tupleLt_trans
  · intro hfp hne
    apply tupleLt_connex
    intro hpair
    have h1 : a.filepath = b.filepath := congrArg Prod.fst hpair
    have h2 : a.subpath = b.subpath := congrArg Prod.snd hpair
    exact hne ((zipPath_eq_iff a b).mpr ⟨h1, h2⟩)

/-- Claim C6, witness at concrete paths. -/
theorem C6_eq_hash_ord_witness :
    ZipPath.eqZ ⟨"a.zip".data, "x".data⟩ ⟨"a.zip".data, "x".data⟩ = true ∧
    ZipPath.hashZ ⟨"a.zip".data, "x".data⟩ = ZipPath.hashZ ⟨"a.zip".data, "x".data⟩ ∧
    ZipPath.ltZ ⟨"a.zip".data, "x".data⟩ ⟨"a.zip".data, "y".data⟩ = true :=
  ⟨(C6_eq_hash_ord ⟨"a.zip".data, "x".data⟩ ⟨"a.zip".data, "x".data⟩
      ⟨"a.zip".data, "x".data⟩).1.mpr rfl,
   (C6_eq_hash_ord ⟨"a.zip".data, "x".data⟩ ⟨"a.zip".data, "x".data⟩
      ⟨"a.zip".data, "x".data⟩).2.1
     ((C6_eq_hash_ord ⟨"a.zip".data, "x".data⟩ ⟨"a.zip".data, "x".data⟩
        ⟨"a.zip".data, "x".data⟩).1.mpr rfl),
   (C6_eq_hash_ord ⟨"a.zip".data, "x".data⟩ ⟨"a.zip".data, "y".data⟩
      ⟨"a.zip".data, "y".data⟩).2.2.1.mpr (Or.inr ⟨rfl, by decide⟩)⟩

/-- Claim C7 (confirmed): for a tar-backed virtual path whose relative path
does not resolve in the shared index, `exists()` is the only soft failure
(returns `false`), while `is_file()`, `is_dir()` and `open()` each fail with
an assertion-level error. -/
theorem C7_unresolved_node_fails
    (tarName : Str) (nodes : Nodes) (rpath : List Str)
    (h : lookupLast nodes (joinWith '/' rpath) = none) :
    (TarPath.make tarName nodes rpath none).existsQ = false ∧
    (TarPath.make tarName nodes rpath none).is_file = .error () ∧
    (TarPath.make tarName nodes rpath none).is_dir = .error () ∧
    (∀ mode enc, (TarPath.make tarName nodes rpath none).openF mode enc = .error ()) := by
  have hn : (TarPath.make tarName nodes rpath none).nodeOpt = none := by
    simp [TarPath.make, h]
  have hp : (TarPath.make tarName nodes rpath none).nodeP = .error () := by
    simp [TarPath.nodeP, hn]
  refine ⟨?_, ?_, ?_, ?_⟩
  · simp [TarPath.existsQ, hn]
  · simp [TarPath.is_file, hp, Except.map]
  · simp [TarPath.is_dir, hp, Except.map]
  · intro mode enc
    unfold TarPath.openF
    rw [hp]
    rfl

/-- Claim C7, witness at a concrete unresolved path (empty index). -/
theorem C7_unresolved_node_fails_witness :
    lookupLast ([] : Nodes) (joinWith '/' ["whatever".data]) = none ∧
    (TarPath.make "a.tar.gz".data [] ["whatever".data] none).existsQ = false ∧
    (TarPath.make "a.tar.gz".data [] ["whatever".data] none).is_file = .error () ∧
    (TarPath.make "a.tar.gz".data [] ["whatever".data] none).is_dir = .error () ∧
    (TarPath.make "a.tar.gz".data [] ["whatever".data] none).openF "r".data none = .error () :=
  ⟨rfl,
   (C7_unresolved_node_fails "a.tar.gz".data [] ["whatever".data] rfl).1,
   (C7_unresolved_node_fails "a.tar.gz".data [] ["whatever".data] rfl).2.1,
   (C7_unresolved_node_fails "a.tar.gz".data [] ["whatever".data] rfl).2.2.1,
   (C7_unresolved_node_fails "a.tar.gz".data [] ["whatever".data] rfl).2.2.2 "r".data none⟩

/-- Claim C8 (confirmed): opening a gzip-compressed file whose decompressed
payload is the bytes `b'compressed text'` through the dispatcher yields the
string `'compressed text'` in text mode (`'rt'`, and bare `'r'` which is
coerced to text), and exactly the original bytes in binary mode (`'rb'`). -/
theorem C8_gzip_roundtrip :
    gzipRead ("compressed text".data.map Char.toNat)
        (kopen "file.gz".data "rt".data none none) =
      some (.textual "compressed text".data) ∧
    gzipRead ("compressed text".data.map Char.toNat)
        (kopen "file.gz".data "r".data none none) =
      some (.textual "compressed text".data) ∧
    gzipRead ("compressed text".data.map Char.toNat)
        (kopen "file.gz".data "rb".data none none) =
      some (.binary ("compressed text".data.map Char.toNat)) :=
  ⟨by decide, by decide, by decide⟩

/-- Claim C9 (confirmed): `kopen`'s default mode is text (`'rt'`), and a
bare `'r'` is coerced to `'rt'` in the xz and gzip branches before
delegating, with `'utf8'` as the default encoding when none is supplied. -/
theorem C9_default_text_mode :
    kopenDefaultMode = "rt".data ∧
    (∀ (name : Str) (enc arg : Option Str), endsWith name ".xz".data = true →
      kopen name "r".data enc arg = .lzmaOpen "rt".data (some (enc.getD "utf8".data))) ∧
    (∀ (name : Str) (enc arg : Option Str), endsWith name ".gz".data = true →
      endsWith name ".tar.gz".data = false →
      kopen name "r".data enc arg = .gzipOpen "rt".data (some (enc.getD "utf8".data))) := by
  refine ⟨rfl, ?_, ?_⟩
  · intro name enc arg h
    simp [kopen, h]
  · intro name enc arg h htar
    have h1 : endsWith name ".xz".data = false :=
      endsWith_excl h ".xz".data (by decide) (by decide)
    have h2 : endsWith name ".zip".data = false :=
      endsWith_excl h ".zip".data (by decide) (by decide)
    have h3 : endsWith name ".lz4".data = false :=
      endsWith_excl h ".lz4".data (by decide) (by decide)
    have h4 : endsWith name ".zstd".data = false :=
      endsWith_excl h ".zstd".data (by decide) (by decide)
    have h5 : endsWith name ".zst".data = false :=
      endsWith_excl h ".zst".data (by decide) (by decide)
    simp [kopen, h, htar, h1, h2, h3, h4, h5]

/-- Claim C9, witness at concrete inputs. -/
theorem C9_default_text_mode_witness :
    kopen "a.xz".data "r".data none none = .lzmaOpen "rt".data (some "utf8".data) ∧
    kopen "a.gz".data "r".data none none = .gzipOpen "rt".data (some "utf8".data) :=
  ⟨C9_default_text_mode.2.1 "a.xz".data none none (by decide),
   C9_default_text_mode.2.2 "a.gz".data none none (by decide) (by decide)⟩

/-- Claim C10 (confirmed): a zip-backed virtual path compares unequal
(`==` is `False`) and not-less (`<` is `False`) against every value that is
not a zip-backed virtual path — including a plain filesystem path with an
identical textual value — even though its reported class identity is the
plain `Path` type. -/
theorem C10_foreign_compare_false (z : ZipPath) (v : PyVal)
    (hv : ∀ w, v ≠ PyVal.zipP w) :
    ZipPath.eqPy z v = false ∧ ZipPath.ltPy z v = false ∧
    ZipPath.classOf z = .pathCls := by
  cases v with
  | zipP w => exact absurd rfl (hv w)
  | plainPath s => exact ⟨rfl, rfl, rfl⟩
  | otherVal => exact ⟨rfl, rfl, rfl⟩

/-- Claim C10, witness: a plain path with the same textual value as the
virtual path. -/
theorem C10_foreign_compare_false_witness :
    ZipPath.eqPy ⟨"a.zip".data, "x".data⟩ (.plainPath "a.zip/x".data) = false ∧
    ZipPath.ltPy ⟨"a.zip".data, "x".data⟩ (.plainPath "a.zip/x".data) = false ∧
    ZipPath.classOf ⟨"a.zip".data, "x".data⟩ = .pathCls :=
  C10_foreign_compare_false ⟨"a.zip".data, "x".data⟩ (.plainPath "a.zip/x".data)
    (fun _ h => PyVal.noConfusion h)

end Kompress
